import Mathlib

/-
Verification of the availability / booking-conflict core of the padel-club
reservation system (gestion/models.py, gestion/forms.py, gestion/views.py).

Shallow embedding conventions:
  * Python datetime.time values are pairs (hour, minute) compared
    lexicographically; seconds are always zero in this code base.
  * Calendar dates are Nat (days since an arbitrary epoch); Django's
    timezone.now().date() is passed explicitly as a `today` parameter.
  * Decimal currency amounts are Rat.
  * The relational store is a List Reserva.  The partial unique index
    unique_confirmed_reservation (models.py Reserva.Meta.constraints) and
    primary-key uniqueness are modelled by the guarded write primitives
    dbInsert / dbUpdate: a write that would violate a constraint returns
    none (the database raises IntegrityError).
-/

namespace PadelClub

/-- Time of day as stored in a Python datetime.time: hour and minute. -/
structure Hora where
  hour : Nat
  minute : Nat
  deriving DecidableEq, Repr

/-- Python datetime.time strict order: lexicographic on (hour, minute). -/
def Hora.lt (a b : Hora) : Bool :=
  decide (a.hour < b.hour) || (decide (a.hour = b.hour) && decide (a.minute < b.minute))

/-- Reservation states (Reserva.ESTADOS in models.py). -/
inductive Estado where
  | confirmada
  | cancelada
  | completada
  | no_show
  deriving DecidableEq, Repr

/-- A court (models.py Cancha); only the fields the core logic reads. -/
structure Cancha where
  id : Nat
  nombre : String
  tarifa_hora : Rat
  activa : Bool
  deriving DecidableEq, Repr

/-- A reservation row (models.py Reserva).  hora_fin is Option because the
in-memory object may not have it set before Reserva.save fills it in; a
row whose hora_fin is none compares as SQL NULL (no conflict matches). -/
structure Reserva where
  id : Nat
  cancha : Nat
  jugador : Nat
  fecha_reserva : Nat
  hora_inicio : Hora
  hora_fin : Option Hora
  estado : Estado
  notas : Option String
  precio_total : Rat
  deriving DecidableEq, Repr

/-- The default end time computed inside Cancha.esta_disponible when
hora_fin is not given: time(hour=(hora_inicio.hour + 1) % 24).  Note the
minute component is dropped (datetime.time defaults minute to 0). -/
def hora_fin_default_disponible (hora_inicio : Hora) : Hora :=
  { hour := (hora_inicio.hour + 1) % 24, minute := 0 }

/-- The default end time computed inside Reserva.save when hora_fin is not
set: time(hour=(hora_inicio.hour + 1) % 24, minute=hora_inicio.minute). -/
def hora_fin_default_save (hora_inicio : Hora) : Hora :=
  { hour := (hora_inicio.hour + 1) % 24, minute := hora_inicio.minute }

/-- End-time computation as the specification words it: start plus one
hour, the hour wrapping modulo 24, the minute unchanged. -/
def specComputeEnd (start : Hora) : Hora :=
  { hour := (start.hour + 1) % 24, minute := start.minute }

/-- The comparison hora_fin__gt=hi of the conflict queryset: a NULL
hora_fin compares as false, as in SQL. -/
def hora_fin_mayor (hi : Hora) (o : Option Hora) : Bool :=
  match o with
  | some rf => Hora.lt hi rf
  | none => false

/-- The per-row conflict condition of the queryset in
Cancha.esta_disponible: same court and date, status confirmed, and
half-open interval overlap (hora_inicio < hf and hora_fin > hi). -/
def conflictoCon (cid fecha : Nat) (hi hf : Hora) (r : Reserva) : Bool :=
  decide (r.cancha = cid) && decide (r.fecha_reserva = fecha) &&
  decide (r.estado = Estado.confirmada) &&
  Hora.lt r.hora_inicio hf &&
  hora_fin_mayor hi r.hora_fin

/-- models.py Cancha.esta_disponible. -/
def Cancha.esta_disponible (c : Cancha) (db : List Reserva) (fecha : Nat)
    (hora_inicio : Hora) (hora_fin : Option Hora) : Bool :=
  if !c.activa then false
  else
    let hf := hora_fin.getD (hora_fin_default_disponible hora_inicio)
    !(db.any (conflictoCon c.id fecha hora_inicio hf))

/-- models.py Cancha.get_reservas_del_dia (the ordering by hora_inicio is
irrelevant to every property proved here and is omitted). -/
def Cancha.get_reservas_del_dia (c : Cancha) (db : List Reserva) (fecha : Nat) :
    List Reserva :=
  db.filter (fun r => decide (r.cancha = c.id) && decide (r.fecha_reserva = fecha) &&
    decide (r.estado = Estado.confirmada))

/-- The operating-window slot list built in get_horarios_disponibles:
time(hour=h) for h in range(8, 22). -/
def horarios_funcionamiento : List Hora :=
  (List.range' 8 14).map (fun h => { hour := h, minute := 0 })

/-- models.py Cancha.get_horarios_disponibles. -/
def Cancha.get_horarios_disponibles (c : Cancha) (db : List Reserva) (fecha : Nat) :
    List Hora :=
  if !c.activa then []
  else
    let horarios_ocupados := (c.get_reservas_del_dia db fecha).map Reserva.hora_inicio
    horarios_funcionamiento.filter (fun h => !(decide (h ∈ horarios_ocupados)))

/-- The field-defaulting part of models.py Reserva.save: if precio_total
is falsy (Decimal 0) it becomes the court tariff; if hora_fin is unset it
becomes start plus one hour (hour modulo 24, minute preserved). -/
def Reserva.save_defaults (c : Cancha) (r : Reserva) : Reserva :=
  let r1 := if r.precio_total = 0 then { r with precio_total := c.tarifa_hora } else r
  match r1.hora_fin with
  | none => { r1 with hora_fin := some (hora_fin_default_save r1.hora_inicio) }
  | some _ => r1

/-- The partial unique constraint unique_confirmed_reservation: inserting
or updating row r violates it iff r is confirmed and some other confirmed
row has the same (cancha, fecha_reserva, hora_inicio). -/
def violatesUniqueConfirmed (db : List Reserva) (r : Reserva) : Bool :=
  decide (r.estado = Estado.confirmada) &&
  db.any (fun q => decide (q.estado = Estado.confirmada) && decide (q.cancha = r.cancha) &&
    decide (q.fecha_reserva = r.fecha_reserva) && decide (q.hora_inicio = r.hora_inicio))

/-- Database INSERT: rejected (IntegrityError, none) when it would violate
the partial unique constraint or primary-key uniqueness. -/
def dbInsert (db : List Reserva) (r : Reserva) : Option (List Reserva) :=
  if violatesUniqueConfirmed db r || db.any (fun q => decide (q.id = r.id)) then none
  else some (r :: db)

/-- Database UPDATE of the row with id r.id: rejected (none) when the new
row value would violate the partial unique constraint against the other
rows. -/
def dbUpdate (db : List Reserva) (r : Reserva) : Option (List Reserva) :=
  if violatesUniqueConfirmed (db.filter (fun q => decide (q.id ≠ r.id))) r then none
  else some (db.map (fun q => if q.id = r.id then r else q))

/-- A freshly constructed Reserva with Django's field defaults: estado
defaults to confirmada, precio_total to 0 when not supplied. -/
def Reserva.nueva (id cancha jugador fecha_reserva : Nat) (hora_inicio : Hora)
    (hora_fin : Option Hora) (notas : Option String) (precio_total : Option Rat) :
    Reserva :=
  { id := id, cancha := cancha, jugador := jugador, fecha_reserva := fecha_reserva,
    hora_inicio := hora_inicio, hora_fin := hora_fin, estado := Estado.confirmada,
    notas := notas, precio_total := precio_total.getD 0 }

/-- The row that a reserva_rapida request hands to the database: built
with the court, the requesting player, date, start time and the tariff as
explicit price, then passed through the save hook (which fills hora_fin
with start plus one hour). -/
def rapidaRecord (c : Cancha) (jugador fecha : Nat) (hora : Hora) (nid : Nat) : Reserva :=
  Reserva.save_defaults c
    (Reserva.nueva nid c.id jugador fecha hora none none (some c.tarifa_hora))

/-- Observable outcomes of the reserva_rapida view (views.py): the JSON
success response, the in-stock slot-taken message, and the generic
exception-handler message. -/
inductive RapidaResult where
  | success (db : List Reserva)
  | horarioNoDisponible
  | errorAlCrear
  deriving DecidableEq, Repr

/-- views.py reserva_rapida (POST branch): look the active court up,
check availability with the default end time, then create the reservation
with precio_total set to the tariff; a missing or inactive court and a
rejected insert both fall into the generic except-branch message. -/
def reserva_rapida (canchas : List Cancha) (db : List Reserva)
    (cancha_id jugador fecha : Nat) (hora : Hora) (new_id : Nat) : RapidaResult :=
  match canchas.find? (fun c => decide (c.id = cancha_id) && c.activa) with
  | none => RapidaResult.errorAlCrear
  | some cancha =>
    if cancha.esta_disponible db fecha hora none then
      match dbInsert db (rapidaRecord cancha jugador fecha hora new_id) with
      | some db2 => RapidaResult.success db2
      | none => RapidaResult.errorAlCrear
    else RapidaResult.horarioNoDisponible

/-- Form-level validation failures of the ReservaForm path (forms.py)
that surface to the user as typed field or form errors. -/
inductive FormError where
  | fechaPasada
  | fueraDeHorario
  | noDisponible
  deriving DecidableEq, Repr

/-- forms.py ReservaForm.clean_fecha_reserva: reject dates before today. -/
def clean_fecha_reserva (today fecha : Nat) : List FormError :=
  if fecha < today then [FormError.fechaPasada] else []

/-- forms.py ReservaForm.clean_hora_inicio: reject hours outside 8..21. -/
def clean_hora_inicio (hora : Hora) : List FormError :=
  if hora.hour < 8 ∨ 22 ≤ hora.hour then [FormError.fueraDeHorario] else []

/-- Observable outcome of the form-based creation request: a created
record, a re-rendered form carrying typed validation errors, or an
unhandled exception escaping the view (an HTTP 500 fault). -/
inductive FormOutcome where
  | ok (db : List Reserva)
  | invalid (errs : List FormError)
  | fault
  deriving DecidableEq, Repr

/-- The full-form creation path (views.py crear_reserva with
forms.py ReservaForm).  Field validation runs first; ModelForm validation
then always runs Reserva.full_clean on an instance built from the fields
that validated, and only ValidationError is caught there, which fixes the
observable outcomes:
  * an invalid or inactive court leaves the instance's cancha unset and
    Reserva.clean raises RelatedObjectDoesNotExist at the expression
    self.cancha: an unhandled fault;
  * an out-of-window start hour is stripped from cleaned_data, so
    Reserva.clean calls esta_disponible with hora_inicio None, which
    raises AttributeError computing hora_inicio.hour: an unhandled fault,
    never a typed out-of-hours result;
  * a past date alone is stripped from cleaned_data too, but Reserva.clean
    survives it (the falsy date skips its date check and its availability
    query on a NULL date matches no row), so the user gets the typed
    past-date field error and no record;
  * with all fields valid, the form-level clean availability check (end
    time = start plus one hour, minute preserved) either rejects with the
    typed not-available error or form.save persists via Reserva.save; a
    commit rejected by the database (IntegrityError) is uncaught in the
    view: a fault. -/
def crear_reserva_form (canchas : List Cancha) (db : List Reserva)
    (cancha_id jugador today fecha : Nat) (hora : Hora) (notas : Option String)
    (new_id : Nat) : FormOutcome :=
  match canchas.find? (fun c => decide (c.id = cancha_id) && c.activa) with
  | none => FormOutcome.fault
  | some cancha =>
    match clean_hora_inicio hora with
    | [] =>
      match clean_fecha_reserva today fecha with
      | [] =>
        if cancha.esta_disponible db fecha hora (some (hora_fin_default_save hora)) then
          match dbInsert db (Reserva.save_defaults cancha
            (Reserva.nueva new_id cancha.id jugador fecha hora
              (some (hora_fin_default_save hora)) notas none)) with
          | some db2 => FormOutcome.ok db2
          | none => FormOutcome.fault
        else FormOutcome.invalid [FormError.noDisponible]
      | errs => FormOutcome.invalid errs
    | _ => FormOutcome.fault

/-- models.py Reserva.puede_cancelar: confirmed and not in the past. -/
def Reserva.puede_cancelar (r : Reserva) (today : Nat) : Bool :=
  decide (r.estado = Estado.confirmada) && decide (today ≤ r.fecha_reserva)

/-- models.py Reserva.cancelar: when puede_cancelar holds, set estado to
cancelada, record the cancelling actor in notas when given, and persist
via save (field defaulting plus the database UPDATE, which for a
cancelled row never violates the partial constraint); otherwise return
False without touching anything.  Returns (returned bool, the reservation
object, the store). -/
def Reserva.cancelar (r : Reserva) (c : Cancha) (db : List Reserva)
    (usuario_cancelacion : Option String) (today : Nat) :
    Bool × Reserva × List Reserva :=
  if r.puede_cancelar today then
    let r1 := { r with estado := Estado.cancelada }
    let r2 := match usuario_cancelacion with
      | some nombre => { r1 with notas := some ("Cancelada por: " ++ nombre) }
      | none => r1
    let r3 := Reserva.save_defaults c r2
    (true, r3, (dbUpdate db r3).getD db)
  else (false, r, db)

/-! Component lemmas about Reserva.save_defaults: the save hook only
touches precio_total and hora_fin. -/

theorem save_defaults_estado (c : Cancha) (x : Reserva) :
    (Reserva.save_defaults c x).estado = x.estado := by
  simp only [Reserva.save_defaults]
  split <;> split <;> rfl

theorem save_defaults_notas (c : Cancha) (x : Reserva) :
    (Reserva.save_defaults c x).notas = x.notas := by
  simp only [Reserva.save_defaults]
  split <;> split <;> rfl

theorem save_defaults_cancha (c : Cancha) (x : Reserva) :
    (Reserva.save_defaults c x).cancha = x.cancha := by
  simp only [Reserva.save_defaults]
  split <;> split <;> rfl

theorem save_defaults_fecha (c : Cancha) (x : Reserva) :
    (Reserva.save_defaults c x).fecha_reserva = x.fecha_reserva := by
  simp only [Reserva.save_defaults]
  split <;> split <;> rfl

theorem save_defaults_hora_inicio (c : Cancha) (x : Reserva) :
    (Reserva.save_defaults c x).hora_inicio = x.hora_inicio := by
  simp only [Reserva.save_defaults]
  split <;> split <;> rfl

theorem save_defaults_id (c : Cancha) (x : Reserva) :
    (Reserva.save_defaults c x).id = x.id := by
  simp only [Reserva.save_defaults]
  split <;> split <;> rfl

theorem save_defaults_precio (c : Cancha) (x : Reserva) :
    (Reserva.save_defaults c x).precio_total =
      (if x.precio_total = 0 then c.tarifa_hora else x.precio_total) := by
  simp only [Reserva.save_defaults]
  split <;> split <;> simp_all

theorem hora_fin_mayor_iff (hi : Hora) (o : Option Hora) :
    hora_fin_mayor hi o = true ↔ ∃ rf, o = some rf ∧ Hora.lt hi rf = true := by
  cases o <;> simp [hora_fin_mayor]

/-! Concrete sample data used by witnesses and counterexamples. -/

def canchaCentral : Cancha :=
  { id := 1, nombre := "Central", tarifa_hora := 80, activa := true }

def canchaCerrada : Cancha :=
  { id := 2, nombre := "Cerrada", tarifa_hora := 50, activa := false }

def rConfirmada : Reserva :=
  { id := 1, cancha := 1, jugador := 1, fecha_reserva := 5,
    hora_inicio := { hour := 10, minute := 0 }, hora_fin := some { hour := 11, minute := 0 },
    estado := Estado.confirmada, notas := none, precio_total := 80 }

/-- C3: for every court, date and requested half-open interval, the
availability check returns false when the court is inactive, and for an
active court it returns false exactly when some stored reservation for
that court and date in status confirmada overlaps the requested interval
in the half-open sense (existing start before requested end, existing end
after requested start).  The embedding of esta_disponible is a pure
function of the store: it performs no mutation. -/
theorem c3_esta_disponible_correct (c : Cancha) (db : List Reserva) (fecha : Nat)
    (hi hf : Hora) :
    (c.activa = false → c.esta_disponible db fecha hi (some hf) = false) ∧
    (c.activa = true →
      (c.esta_disponible db fecha hi (some hf) = false ↔
        ∃ r ∈ db, r.cancha = c.id ∧ r.fecha_reserva = fecha ∧
          r.estado = Estado.confirmada ∧ Hora.lt r.hora_inicio hf = true ∧
          ∃ rf, r.hora_fin = some rf ∧ Hora.lt hi rf = true)) := by
  constructor
  · intro h
    simp [Cancha.esta_disponible, h]
  · intro h
    simp only [Cancha.esta_disponible, h, Bool.not_true, Bool.false_eq_true, if_false,
      Option.getD_some, Bool.not_eq_false', List.any_eq_true, conflictoCon,
      Bool.and_eq_true, decide_eq_true_eq, hora_fin_mayor_iff]
    constructor
    · rintro ⟨r, hr, ⟨⟨⟨⟨h1, h2⟩, h3⟩, h4⟩, h5⟩⟩
      exact ⟨r, hr, h1, h2, h3, h4, h5⟩
    · rintro ⟨r, hr, h1, h2, h3, h4, h5⟩
      exact ⟨r, hr, ⟨⟨⟨⟨h1, h2⟩, h3⟩, h4⟩, h5⟩⟩

/-- Witness for C3 at a concrete input: an inactive court is reported as
not available. -/
theorem c3_witness :
    canchaCerrada.esta_disponible [] 5 { hour := 10, minute := 0 }
      (some { hour := 11, minute := 0 }) = false :=
  (c3_esta_disponible_correct canchaCerrada [] 5 { hour := 10, minute := 0 }
    { hour := 11, minute := 0 }).1 rfl

/-- C4: for an active court and a date with no confirmed reservation, the
slot listing is exactly the fourteen whole hours 08:00 through 21:00 in
ascending order; for an inactive court it is empty. -/
theorem c4_available_slots (c : Cancha) (db : List Reserva) (fecha : Nat) :
    (c.activa = true →
      (∀ r ∈ db, r.cancha = c.id → r.fecha_reserva = fecha → r.estado ≠ Estado.confirmada) →
      c.get_horarios_disponibles db fecha =
        [{ hour := 8, minute := 0 }, { hour := 9, minute := 0 }, { hour := 10, minute := 0 },
         { hour := 11, minute := 0 }, { hour := 12, minute := 0 }, { hour := 13, minute := 0 },
         { hour := 14, minute := 0 }, { hour := 15, minute := 0 }, { hour := 16, minute := 0 },
         { hour := 17, minute := 0 }, { hour := 18, minute := 0 }, { hour := 19, minute := 0 },
         { hour := 20, minute := 0 }, { hour := 21, minute := 0 }]) ∧
    (c.activa = false → c.get_horarios_disponibles db fecha = []) := by
  constructor
  · intro ha hr
    have hfil : c.get_reservas_del_dia db fecha = [] := by
      simp only [Cancha.get_reservas_del_dia, List.filter_eq_nil_iff, Bool.and_eq_true,
        decide_eq_true_eq, not_and]
      intro r hrm h1 h2
      exact hr r hrm h1.1 h1.2 h2
    simp only [Cancha.get_horarios_disponibles, ha, Bool.not_true, Bool.false_eq_true,
      if_false, hfil]
    rfl
  · intro h
    simp [Cancha.get_horarios_disponibles, h]

/-- Witness for C4 at a concrete input: the empty store yields the full
fourteen-slot listing for the active sample court. -/
theorem c4_witness :
    canchaCentral.get_horarios_disponibles [] 5 =
      [{ hour := 8, minute := 0 }, { hour := 9, minute := 0 }, { hour := 10, minute := 0 },
       { hour := 11, minute := 0 }, { hour := 12, minute := 0 }, { hour := 13, minute := 0 },
       { hour := 14, minute := 0 }, { hour := 15, minute := 0 }, { hour := 16, minute := 0 },
       { hour := 17, minute := 0 }, { hour := 18, minute := 0 }, { hour := 19, minute := 0 },
       { hour := 20, minute := 0 }, { hour := 21, minute := 0 }] :=
  (c4_available_slots canchaCentral [] 5).1 rfl (by simp)

/-- C7 counterexample: the claim says every site that defaults the end
time computes start plus one hour, but the availability-check default
drops the minute component: for the start 10:30 it produces 11:00 while
start plus one hour is 11:30. -/
theorem c7_counterexample :
    hora_fin_default_disponible { hour := 10, minute := 30 } = { hour := 11, minute := 0 } ∧
    specComputeEnd { hour := 10, minute := 30 } = { hour := 11, minute := 30 } ∧
    hora_fin_default_disponible { hour := 10, minute := 30 } ≠
      specComputeEnd { hour := 10, minute := 30 } := by
  decide

/-- C7 amended: the persistence-time default always equals start plus one
hour with the hour wrapping modulo 24 and the minute preserved; the
availability-check default equals start plus one hour only when the start
lies on a whole hour (its minute component is zero), since it always
produces minute zero. -/
theorem c7_hora_fin_defaults (hi : Hora) :
    hora_fin_default_save hi = specComputeEnd hi ∧
    (hi.minute = 0 → hora_fin_default_disponible hi = specComputeEnd hi) := by
  refine ⟨rfl, ?_⟩
  intro h
  simp [hora_fin_default_disponible, specComputeEnd, h]

/-- Witness for C7 at the concrete whole-hour start 09:00, where both
default sites agree with start plus one hour. -/
theorem c7_witness :
    hora_fin_default_save { hour := 9, minute := 0 } = specComputeEnd { hour := 9, minute := 0 } ∧
    hora_fin_default_disponible { hour := 9, minute := 0 } =
      specComputeEnd { hour := 9, minute := 0 } :=
  ⟨(c7_hora_fin_defaults { hour := 9, minute := 0 }).1,
   (c7_hora_fin_defaults { hour := 9, minute := 0 }).2 rfl⟩

/-- C5 counterexample: with today = 10, a quick-book request for the past
date 9 does not produce ValidationError(PastDate): reserva_rapida answers
success and persists the record, because the quick path never runs the
date validation. -/
theorem c5_counterexample :
    9 < 10 ∧
    reserva_rapida [canchaCentral] [] 1 1 9 { hour := 10, minute := 0 } 1 =
      RapidaResult.success
        [{ id := 1, cancha := 1, jugador := 1, fecha_reserva := 9,
           hora_inicio := { hour := 10, minute := 0 },
           hora_fin := some { hour := 11, minute := 0 },
           estado := Estado.confirmada, notas := none, precio_total := 80 }] := by
  decide

/-- C5 amended: only the past-date half of the claim survives and only on
the form path: when the court resolves to an active one and the start
hour lies inside the operating window, a form request with date strictly
before today yields the typed past-date validation error, creating no
record, with an outcome independent of the store (so before any
availability check).  A start hour outside the operating window never
yields a typed out-of-hours result on the form path: whatever the court
and date, the request ends in an unhandled fault (Reserva.full_clean
crashes on the stripped start time, or on the unset court), creating no
record.  The quick-book path enforces neither validation. -/
theorem c5_form_validations (canchas : List Cancha) (db : List Reserva)
    (cancha_id jugador today fecha new_id : Nat) (hora : Hora) (notas : Option String) :
    (∀ cancha, canchas.find? (fun c => decide (c.id = cancha_id) && c.activa) = some cancha →
      ¬ (hora.hour < 8 ∨ 22 ≤ hora.hour) → fecha < today →
      crear_reserva_form canchas db cancha_id jugador today fecha hora notas new_id =
        FormOutcome.invalid [FormError.fechaPasada]) ∧
    ((hora.hour < 8 ∨ 22 ≤ hora.hour) →
      crear_reserva_form canchas db cancha_id jugador today fecha hora notas new_id =
        FormOutcome.fault) := by
  constructor
  · intro cancha hfind hhora hfecha
    have hch : clean_hora_inicio hora = [] := by
      simp [clean_hora_inicio, hhora]
    have hcf : clean_fecha_reserva today fecha = [FormError.fechaPasada] := by
      simp [clean_fecha_reserva, hfecha]
    unfold crear_reserva_form
    rw [hfind, hch, hcf]
  · intro h
    have hch : clean_hora_inicio hora = [FormError.fueraDeHorario] := by
      simp [clean_hora_inicio, h]
    unfold crear_reserva_form
    cases hfind : canchas.find? (fun c => decide (c.id = cancha_id) && c.activa) with
    | none => rfl
    | some cancha => rw [hch]

/-- Witness for C5 at concrete inputs: with today = 10 the form path
rejects the past date 3 with the typed past-date error, while a request
at 23:00 for a valid date ends in the unhandled fault. -/
theorem c5_witness :
    crear_reserva_form [canchaCentral] [] 1 1 10 3 { hour := 10, minute := 0 } none 1 =
      FormOutcome.invalid [FormError.fechaPasada] ∧
    crear_reserva_form [canchaCentral] [] 1 1 10 20 { hour := 23, minute := 0 } none 1 =
      FormOutcome.fault :=
  ⟨(c5_form_validations [canchaCentral] [] 1 1 10 3 1 { hour := 10, minute := 0 } none).1
      canchaCentral (by decide) (by decide) (by decide),
   (c5_form_validations [canchaCentral] [] 1 1 10 20 1 { hour := 23, minute := 0 } none).2
      (by decide)⟩

/-- C6: puede_cancelar holds exactly for a confirmed reservation whose
date is today or later; cancelar on a non-cancellable reservation returns
false and mutates nothing; on a cancellable one it returns true, sets the
state to cancelada, records the actor attribution note when an actor is
given, and persists; and a second cancelar on the result is a no-op
returning false with the reservation and store unchanged. -/
theorem c6_cancel_lifecycle (r : Reserva) (c : Cancha) (db : List Reserva)
    (actor : Option String) (today : Nat) :
    (r.puede_cancelar today = true ↔
      (r.estado = Estado.confirmada ∧ today ≤ r.fecha_reserva)) ∧
    (r.puede_cancelar today = false → r.cancelar c db actor today = (false, r, db)) ∧
    (r.puede_cancelar today = true →
      (r.cancelar c db actor today).1 = true ∧
      (r.cancelar c db actor today).2.1.estado = Estado.cancelada ∧
      (∀ nombre, actor = some nombre →
        (r.cancelar c db actor today).2.1.notas = some ("Cancelada por: " ++ nombre)) ∧
      ∀ actor2 today2,
        (r.cancelar c db actor today).2.1.cancelar c ((r.cancelar c db actor today).2.2)
            actor2 today2 =
          (false, (r.cancelar c db actor today).2.1, (r.cancelar c db actor today).2.2)) := by
  refine ⟨?_, ?_, ?_⟩
  · simp [Reserva.puede_cancelar]
  · intro h
    simp [Reserva.cancelar, h]
  · intro h
    cases actor with
    | none =>
      simp only [Reserva.cancelar, h, if_true]
      have hest : (Reserva.save_defaults c { r with estado := Estado.cancelada }).estado =
          Estado.cancelada := by rw [save_defaults_estado]
      refine ⟨trivial, hest, ?_, ?_⟩
      · intro nombre hn
        exact absurd hn (by simp)
      · intro actor2 today2
        have hpc : (Reserva.save_defaults c { r with estado := Estado.cancelada
            }).puede_cancelar today2 = false := by
          simp [Reserva.puede_cancelar, hest]
        simp [Reserva.cancelar, hpc]
    | some nombre0 =>
      simp only [Reserva.cancelar, h, if_true]
      have hest : (Reserva.save_defaults c
          { r with estado := Estado.cancelada,
                   notas := some ("Cancelada por: " ++ nombre0) }).estado =
          Estado.cancelada := by rw [save_defaults_estado]
      refine ⟨trivial, hest, ?_, ?_⟩
      · intro nombre hn
        cases hn
        rw [save_defaults_notas]
      · intro actor2 today2
        have hpc : (Reserva.save_defaults c
            { r with estado := Estado.cancelada,
                     notas := some ("Cancelada por: " ++ nombre0) }).puede_cancelar today2 =
            false := by
          simp [Reserva.puede_cancelar, hest]
        simp [Reserva.cancelar, hpc]

/-- Witness for C6 at a concrete input: cancelling the sample confirmed
reservation (actor "Admin", today 0) returns true, leaves it cancelled and
records the attribution note. -/
theorem c6_witness :
    (rConfirmada.cancelar canchaCentral [rConfirmada] (some "Admin") 0).1 = true ∧
    (rConfirmada.cancelar canchaCentral [rConfirmada] (some "Admin") 0).2.1.estado =
      Estado.cancelada ∧
    (rConfirmada.cancelar canchaCentral [rConfirmada] (some "Admin") 0).2.1.notas =
      some ("Cancelada por: " ++ "Admin") := by
  have h := (c6_cancel_lifecycle rConfirmada canchaCentral [rConfirmada] (some "Admin") 0).2.2
    (by decide)
  exact ⟨h.1, h.2.1, h.2.2.1 "Admin" rfl⟩

/-- C8 counterexample: an explicitly supplied total price of 0 is not
kept unchanged: because the save hook treats the falsy Decimal 0 as
unsupplied, the persisted price becomes the tariff 80. -/
theorem c8_counterexample :
    (Reserva.save_defaults canchaCentral
      (Reserva.nueva 1 1 1 5 { hour := 10, minute := 0 } none none (some 0))).precio_total =
      80 ∧ (0 : Rat) ≠ 80 := by
  decide

/-- C8 amended: for a created reservation, an unsupplied price (the field
default 0) is replaced by the court tariff, a supplied nonzero price is
kept unchanged, a supplied price of exactly 0 is treated as unsupplied
and also replaced by the tariff, and the created reservation's state is
confirmada. -/
theorem c8_precio_y_estado (c : Cancha) (id jugador fecha : Nat) (hora : Hora)
    (hora_fin : Option Hora) (notas : Option String) (precio : Option Rat) :
    (precio = none →
      (Reserva.save_defaults c
        (Reserva.nueva id c.id jugador fecha hora hora_fin notas precio)).precio_total =
        c.tarifa_hora) ∧
    (∀ p : Rat, precio = some p → ¬ p = 0 →
      (Reserva.save_defaults c
        (Reserva.nueva id c.id jugador fecha hora hora_fin notas precio)).precio_total = p) ∧
    (precio = some 0 →
      (Reserva.save_defaults c
        (Reserva.nueva id c.id jugador fecha hora hora_fin notas precio)).precio_total =
        c.tarifa_hora) ∧
    (Reserva.save_defaults c
      (Reserva.nueva id c.id jugador fecha hora hora_fin notas precio)).estado =
      Estado.confirmada := by
  refine ⟨?_, ?_, ?_, ?_⟩
  · intro h
    subst h
    rw [save_defaults_precio]
    simp [Reserva.nueva]
  · intro p hp hnz
    subst hp
    rw [save_defaults_precio]
    simp [Reserva.nueva, hnz]
  · intro h
    subst h
    rw [save_defaults_precio]
    simp [Reserva.nueva]
  · rw [save_defaults_estado]
    rfl

/-- Witness for C8 at a concrete input: with no supplied price the
persisted price is the tariff of the sample court. -/
theorem c8_witness :
    (Reserva.save_defaults canchaCentral
      (Reserva.nueva 1 1 1 5 { hour := 10, minute := 0 } none none none)).precio_total =
      canchaCentral.tarifa_hora :=
  (c8_precio_y_estado canchaCentral 1 1 5 { hour := 10, minute := 0 } none none none).1 rfl

/-- The reservation persisted by the quick-book run of the C10 theorem:
date 9 (in the past when today = 10) and start 23:00 (outside the
operating window). -/
def rPasada : Reserva :=
  { id := 1, cancha := 1, jugador := 1, fecha_reserva := 9,
    hora_inicio := { hour := 23, minute := 0 }, hora_fin := some { hour := 0, minute := 0 },
    estado := Estado.confirmada, notas := none, precio_total := 80 }

/-- C10: the quick-book path persists a confirmed reservation whose date
is in the past and whose start time lies outside the 08:00 to 22:00
operating window: with today = 10, a request for date 9 at 23:00 succeeds
and creates the confirmed record, although the form-level validations
would reject both the date and the hour. -/
theorem c10_quick_path_skips_validations :
    reserva_rapida [canchaCentral] [] 1 1 9 { hour := 23, minute := 0 } 1 =
      RapidaResult.success [rPasada] ∧
    rPasada.fecha_reserva < 10 ∧ 22 ≤ rPasada.hora_inicio.hour ∧
    rPasada.estado = Estado.confirmada ∧
    clean_fecha_reserva 10 rPasada.fecha_reserva = [FormError.fechaPasada] ∧
    clean_hora_inicio rPasada.hora_inicio = [FormError.fueraDeHorario] := by
  decide

/-! Reachability of store states and the uniqueness invariant (C1). -/

/-- Two rows that would jointly violate the partial unique constraint:
both confirmed, same court, date and start time. -/
def MismoSlotConfirmado (a b : Reserva) : Prop :=
  a.estado = Estado.confirmada ∧ b.estado = Estado.confirmada ∧
  a.cancha = b.cancha ∧ a.fecha_reserva = b.fecha_reserva ∧ a.hora_inicio = b.hora_inicio

theorem mismoSlot_symm {a b : Reserva} (h : MismoSlotConfirmado a b) :
    MismoSlotConfirmado b a :=
  ⟨h.2.1, h.1, h.2.2.1.symm, h.2.2.2.1.symm, h.2.2.2.2.symm⟩

/-- The central uniqueness invariant: no two distinct rows of the store
are both confirmed for the same (court, date, start time). -/
def UniqueConfirmed (db : List Reserva) : Prop :=
  db.Pairwise (fun a b => ¬ MismoSlotConfirmado a b)

/-- The store invariant maintained by the database: the uniqueness
invariant together with primary-key uniqueness. -/
def DbInv (db : List Reserva) : Prop :=
  db.Pairwise (fun a b => ¬ MismoSlotConfirmado a b ∧ a.id ≠ b.id)

theorem not_mismo_of_violates_false {db : List Reserva} {r : Reserva}
    (h : violatesUniqueConfirmed db r = false) : ∀ q ∈ db, ¬ MismoSlotConfirmado r q := by
  intro q hq hm
  have ht : violatesUniqueConfirmed db r = true := by
    simp only [violatesUniqueConfirmed, Bool.and_eq_true, decide_eq_true_eq,
      List.any_eq_true, and_assoc]
    exact ⟨hm.1, q, hq, hm.2.1, hm.2.2.1.symm, hm.2.2.2.1.symm, hm.2.2.2.2.symm⟩
  rw [h] at ht
  cases ht

theorem dbInsert_some {db : List Reserva} {r : Reserva} {db2 : List Reserva}
    (h : dbInsert db r = some db2) :
    violatesUniqueConfirmed db r = false ∧ (∀ q ∈ db, q.id ≠ r.id) ∧ db2 = r :: db := by
  unfold dbInsert at h
  split at h
  · cases h
  · next hcond =>
    injection h with h2
    simp only [Bool.or_eq_true, not_or, Bool.not_eq_true, List.any_eq_true,
      decide_eq_true_eq, not_exists] at hcond
    refine ⟨hcond.1, ?_, h2.symm⟩
    intro q hq he
    exact hcond.2 q ⟨hq, he⟩

theorem dbUpdate_some {db : List Reserva} {r : Reserva} {db2 : List Reserva}
    (h : dbUpdate db r = some db2) :
    violatesUniqueConfirmed (db.filter (fun q => decide (q.id ≠ r.id))) r = false ∧
    db2 = db.map (fun q => if q.id = r.id then r else q) := by
  unfold dbUpdate at h
  split at h
  · cases h
  · next hcond =>
    injection h with h2
    exact ⟨by simpa using hcond, h2.symm⟩

theorem dbInv_insert {db : List Reserva} {r : Reserva} {db2 : List Reserva}
    (h : dbInsert db r = some db2) (hi : DbInv db) : DbInv db2 := by
  obtain ⟨hv, hid, rfl⟩ := dbInsert_some h
  refine List.Pairwise.cons ?_ hi
  intro q hq
  exact ⟨not_mismo_of_violates_false hv q hq, fun he => hid q hq he.symm⟩

theorem dbInv_update {db : List Reserva} {r : Reserva} {db2 : List Reserva}
    (h : dbUpdate db r = some db2) (hi : DbInv db) : DbInv db2 := by
  obtain ⟨hv, rfl⟩ := dbUpdate_some h
  have hmem : ∀ q ∈ db, q.id ≠ r.id → ¬ MismoSlotConfirmado r q := by
    intro q hq hne
    exact not_mismo_of_violates_false hv q (List.mem_filter.mpr ⟨hq, by simpa using hne⟩)
  have hfid : ∀ a : Reserva, (if a.id = r.id then r else a).id = a.id := by
    intro a
    split
    · next he => rw [he]
    · rfl
  unfold DbInv
  rw [List.pairwise_map]
  refine List.Pairwise.imp_of_mem ?_ hi
  intro a b ha hb hab
  refine ⟨?_, by rw [hfid a, hfid b]; exact hab.2⟩
  by_cases ha2 : a.id = r.id <;> by_cases hb2 : b.id = r.id
  · exact absurd (ha2.trans hb2.symm) hab.2
  · simp only [if_pos ha2, if_neg hb2]
    exact hmem b hb hb2
  · simp only [if_neg ha2, if_pos hb2]
    exact fun hm => hmem a ha ha2 (mismoSlot_symm hm)
  · simp only [if_neg ha2, if_neg hb2]
    exact hab.1

theorem dbInv_cancelar (r : Reserva) (c : Cancha) (db : List Reserva)
    (actor : Option String) (today : Nat) (hi : DbInv db) :
    DbInv (r.cancelar c db actor today).2.2 := by
  unfold Reserva.cancelar
  split
  · simp only []
    cases actor with
    | none =>
      cases h : dbUpdate db (Reserva.save_defaults c { r with estado := Estado.cancelada }) with
      | none => simpa [h] using hi
      | some db2 => simpa [h] using dbInv_update h hi
    | some nombre =>
      cases h : dbUpdate db (Reserva.save_defaults c
          { r with estado := Estado.cancelada,
                   notas := some ("Cancelada por: " ++ nombre) }) with
      | none => simpa [h] using hi
      | some db2 => simpa [h] using dbInv_update h hi
  · exact hi

theorem reserva_rapida_success {canchas : List Cancha} {db : List Reserva}
    {cancha_id jugador fecha : Nat} {hora : Hora} {new_id : Nat} {db2 : List Reserva}
    (h : reserva_rapida canchas db cancha_id jugador fecha hora new_id =
      RapidaResult.success db2) :
    ∃ r, dbInsert db r = some db2 := by
  unfold reserva_rapida at h
  split at h
  · cases h
  · split at h
    · split at h
      · next db3 hins =>
        cases h
        exact ⟨_, hins⟩
      · cases h
    · cases h

theorem crear_reserva_form_ok {canchas : List Cancha} {db : List Reserva}
    {cancha_id jugador today fecha : Nat} {hora : Hora} {notas : Option String}
    {new_id : Nat} {db2 : List Reserva}
    (h : crear_reserva_form canchas db cancha_id jugador today fecha hora notas new_id =
      FormOutcome.ok db2) :
    ∃ r, dbInsert db r = some db2 := by
  unfold crear_reserva_form at h
  split at h
  · cases h
  · split at h
    · split at h
      · split at h
        · split at h
          · next db3 hins =>
            cases h
            exact ⟨_, hins⟩
          · cases h
        · cases h
      · cases h
    · cases h

/-- One mutation of the reservation store, as performed by the
application: a quick-book creation (views.py reserva_rapida), a
form-based creation (views.py crear_reserva with ReservaForm), a
cancellation (models.py Reserva.cancelar), or any other single-row write
that the database accepts (covering the admin screens and bulk status
actions, all of which only insert or update rows through the same
constraint-checked store). -/
inductive Step : List Reserva → List Reserva → Prop
  | rapida (canchas : List Cancha) (db : List Reserva)
      (cancha_id jugador fecha new_id : Nat) (hora : Hora) (db2 : List Reserva)
      (h : reserva_rapida canchas db cancha_id jugador fecha hora new_id =
        RapidaResult.success db2) :
      Step db db2
  | form (canchas : List Cancha) (db : List Reserva)
      (cancha_id jugador today fecha new_id : Nat) (hora : Hora) (notas : Option String)
      (db2 : List Reserva)
      (h : crear_reserva_form canchas db cancha_id jugador today fecha hora notas new_id =
        FormOutcome.ok db2) :
      Step db db2
  | cancel (db : List Reserva) (r : Reserva) (c : Cancha) (actor : Option String)
      (today : Nat) (db2 : List Reserva) (hmem : r ∈ db)
      (h : (r.cancelar c db actor today).2.2 = db2) :
      Step db db2
  | adminInsert (db : List Reserva) (r : Reserva) (db2 : List Reserva)
      (h : dbInsert db r = some db2) : Step db db2
  | adminUpdate (db : List Reserva) (r : Reserva) (db2 : List Reserva)
      (h : dbUpdate db r = some db2) : Step db db2

/-- Reachable stores: the empty store, closed under application steps. -/
inductive Reach : List Reserva → Prop
  | init : Reach []
  | step (db db2 : List Reserva) (h1 : Reach db) (h2 : Step db db2) : Reach db2

theorem reach_dbInv {db : List Reserva} (h : Reach db) : DbInv db := by
  induction h with
  | init => exact List.Pairwise.nil
  | step db db2 h1 h2 ih =>
    cases h2 with
    | rapida canchas db cancha_id jugador fecha new_id hora db2 heq =>
      obtain ⟨r, hins⟩ := reserva_rapida_success heq
      exact dbInv_insert hins ih
    | form canchas db cancha_id jugador today fecha new_id hora notas db2 heq =>
      obtain ⟨r, hins⟩ := crear_reserva_form_ok heq
      exact dbInv_insert hins ih
    | cancel db r c actor today db2 hmem heq =>
      rw [← heq]
      exact dbInv_cancelar r c db actor today ih
    | adminInsert db r db2 heq => exact dbInv_insert heq ih
    | adminUpdate db r db2 heq => exact dbInv_update heq ih

/-- The cancelled first reservation of the rebooking trace. -/
def rCancelada1 : Reserva := { rConfirmada with estado := Estado.cancelada }

/-- The second confirmed reservation created for the same slot after the
first one was cancelled. -/
def rReintento : Reserva :=
  { id := 2, cancha := 1, jugador := 1, fecha_reserva := 5,
    hora_inicio := { hour := 10, minute := 0 }, hora_fin := some { hour := 11, minute := 0 },
    estado := Estado.confirmada, notas := none, precio_total := 80 }

/-- C1: in every reachable store state, at most one reservation per
(court, date, start time) triple is in status confirmada (rows in any
other status do not count); and after a cancellation a new confirmed
reservation with the same triple can indeed be created, witnessed by a
reachable store holding a cancelled and a confirmed reservation with the
same triple. -/
theorem c1_unique_confirmed_invariant :
    (∀ db : List Reserva, Reach db → UniqueConfirmed db) ∧
    (∃ db : List Reserva, Reach db ∧ ∃ r1 r2 : Reserva, r1 ∈ db ∧ r2 ∈ db ∧
      r1.estado = Estado.cancelada ∧ r2.estado = Estado.confirmada ∧
      r1.cancha = r2.cancha ∧ r1.fecha_reserva = r2.fecha_reserva ∧
      r1.hora_inicio = r2.hora_inicio) := by
  constructor
  · intro db h
    exact List.Pairwise.imp (fun hab => hab.1) (reach_dbInv h)
  · refine ⟨[rReintento, rCancelada1], ?_, rCancelada1, rReintento, ?_⟩
    · refine Reach.step [rCancelada1] [rReintento, rCancelada1]
        (Reach.step [rConfirmada] [rCancelada1]
          (Reach.step [] [rConfirmada] Reach.init
            (Step.rapida [canchaCentral] [] 1 1 5 1 { hour := 10, minute := 0 }
              [rConfirmada] (by decide)))
          (Step.cancel [rConfirmada] rConfirmada canchaCentral none 0 [rCancelada1]
            (by decide) (by decide)))
        (Step.rapida [canchaCentral] [rCancelada1] 1 1 5 2 { hour := 10, minute := 0 }
          [rReintento, rCancelada1] (by decide))
    · exact ⟨by decide, by decide, by decide, by decide, by decide, by decide, by decide⟩

/-- Witness for C1 at a concrete input: the initial (empty) reachable
store satisfies the uniqueness invariant. -/
theorem c1_witness : UniqueConfirmed [] :=
  c1_unique_confirmed_invariant.1 [] Reach.init

/-! C9: the coarse start-time membership listing versus the interval
overlap check. -/

theorem hora_ext {a b : Hora} (h1 : a.hour = b.hour) (h2 : a.minute = b.minute) :
    a = b := by
  cases a
  cases b
  simp_all

theorem hora_lt_iff (a b : Hora) :
    Hora.lt a b = true ↔ (a.hour < b.hour ∨ (a.hour = b.hour ∧ a.minute < b.minute)) := by
  simp [Hora.lt]

theorem mem_horarios_disponibles_iff (c : Cancha) (db : List Reserva) (fecha : Nat)
    (hact : c.activa = true) (slot : Hora) :
    slot ∈ c.get_horarios_disponibles db fecha ↔
      (slot ∈ horarios_funcionamiento ∧
        ¬ ∃ r ∈ db, r.cancha = c.id ∧ r.fecha_reserva = fecha ∧
          r.estado = Estado.confirmada ∧ r.hora_inicio = slot) := by
  simp only [Cancha.get_horarios_disponibles, hact, Bool.not_true, Bool.false_eq_true,
    if_false, List.mem_filter, Bool.not_eq_true', decide_eq_false_iff_not,
    List.mem_map, Cancha.get_reservas_del_dia, Bool.and_eq_true, decide_eq_true_eq,
    not_exists, not_and]
  constructor
  · rintro ⟨h1, h2⟩
    refine ⟨h1, ?_⟩
    intro r hr e1 e2 e3 e4
    exact h2 r ⟨hr, ⟨e1, e2⟩, e3⟩ e4
  · rintro ⟨h1, h2⟩
    refine ⟨h1, ?_⟩
    rintro r ⟨hr, ⟨e1, e2⟩, e3⟩ e4
    exact h2 r hr e1 e2 e3 e4

theorem esta_disponible_none_iff (c : Cancha) (db : List Reserva) (fecha : Nat)
    (hact : c.activa = true) (hi : Hora) :
    c.esta_disponible db fecha hi none = true ↔
      ∀ r ∈ db, conflictoCon c.id fecha hi (hora_fin_default_disponible hi) r = false := by
  simp only [Cancha.esta_disponible, hact, Bool.not_true, Bool.false_eq_true, if_false,
    Option.getD_none, Bool.not_eq_true', List.any_eq_false, Bool.not_eq_true]

/-- A confirmed reservation starting off the hour grid at 10:30, as the
form path creates it. -/
def rMediaHora : Reserva :=
  { id := 1, cancha := 1, jugador := 1, fecha_reserva := 7,
    hora_inicio := { hour := 10, minute := 30 },
    hora_fin := some { hour := 11, minute := 30 },
    estado := Estado.confirmada, notas := none, precio_total := 80 }

/-- C9 counterexample: a confirmed reservation starting at 10:30 (created
through the form path, so it can exist in the store) breaks the claimed
equivalence at slot 10:00: the slot listing still contains 10:00 (its
start does not coincide with 10:30) while the overlap-based availability
check for 10:00 returns false. -/
theorem c9_counterexample :
    crear_reserva_form [canchaCentral] [] 1 1 5 7 { hour := 10, minute := 30 } none 1 =
      FormOutcome.ok [rMediaHora] ∧
    ({ hour := 10, minute := 0 } : Hora) ∈
      canchaCentral.get_horarios_disponibles [rMediaHora] 7 ∧
    canchaCentral.esta_disponible [rMediaHora] 7 { hour := 10, minute := 0 } none = false :=
  ⟨rfl, by decide, by decide⟩

/-- C9 amended: the equivalence between slot-start membership in
availableSlots and the interval-overlap availability check holds for
every operating-window slot provided every confirmed reservation of that
court and date in the store starts on a whole hour and spans exactly one
hour (hora_fin = start plus one hour); it fails for stores holding a
confirmed off-hour reservation, which the form path can create. -/
theorem c9_slots_iff_disponible (c : Cancha) (db : List Reserva) (fecha : Nat)
    (slot : Hora)
    (hg : ∀ r ∈ db, r.cancha = c.id → r.fecha_reserva = fecha →
      r.estado = Estado.confirmada →
      r.hora_inicio.minute = 0 ∧ r.hora_fin = some (specComputeEnd r.hora_inicio))
    (hs : slot ∈ horarios_funcionamiento) :
    (slot ∈ c.get_horarios_disponibles db fecha ↔
      c.esta_disponible db fecha slot none = true) := by
  obtain ⟨h, hh, rfl⟩ : ∃ h, (8 ≤ h ∧ h < 22) ∧ slot = { hour := h, minute := 0 } := by
    simp only [horarios_funcionamiento, List.mem_map, List.mem_range'_1] at hs
    obtain ⟨k, hk, hke⟩ := hs
    exact ⟨k, ⟨hk.1, by omega⟩, hke.symm⟩
  cases hact : c.activa with
  | false =>
    have h1 : c.get_horarios_disponibles db fecha = [] := by
      simp [Cancha.get_horarios_disponibles, hact]
    have h2 : c.esta_disponible db fecha { hour := h, minute := 0 } none = false := by
      simp [Cancha.esta_disponible, hact]
    rw [h1, h2]
    simp
  | true =>
    rw [mem_horarios_disponibles_iff c db fecha hact,
      esta_disponible_none_iff c db fecha hact]
    have hdef : hora_fin_default_disponible { hour := h, minute := 0 } =
        { hour := h + 1, minute := 0 } := by
      simp only [hora_fin_default_disponible]
      congr 1
      omega
    constructor
    · rintro ⟨hmem, hno⟩ r hr
      by_contra hconf
      rw [Bool.not_eq_false] at hconf
      simp only [conflictoCon, Bool.and_eq_true, decide_eq_true_eq] at hconf
      obtain ⟨⟨⟨⟨e1, e2⟩, e3⟩, e4⟩, e5⟩ := hconf
      obtain ⟨hm0, hfin⟩ := hg r hr e1 e2 e3
      rw [hdef, hora_lt_iff] at e4
      rw [hfin] at e5
      have e5' : Hora.lt { hour := h, minute := 0 } (specComputeEnd r.hora_inicio) = true := e5
      rw [hora_lt_iff] at e5'
      simp only [specComputeEnd] at e5'
      have e4' : r.hora_inicio.hour < h + 1 ∨
          (r.hora_inicio.hour = h + 1 ∧ r.hora_inicio.minute < 0) := e4
      have hgle : r.hora_inicio.hour < h + 1 := by
        rcases e4' with e | e
        · exact e
        · omega
      have hmod : (r.hora_inicio.hour + 1) % 24 = r.hora_inicio.hour + 1 := by
        omega
      have e5'' : h < (r.hora_inicio.hour + 1) % 24 ∨
          (h = (r.hora_inicio.hour + 1) % 24 ∧ 0 < r.hora_inicio.minute) := e5'
      have hhg : h < r.hora_inicio.hour + 1 := by
        rw [hmod] at e5''
        rcases e5'' with e | e
        · exact e
        · omega
      have hgh : r.hora_inicio.hour = h := by omega
      apply hno
      exact ⟨r, hr, e1, e2, e3, hora_ext hgh hm0⟩
    · intro hsafe
      refine ⟨hs, ?_⟩
      rintro ⟨r, hr, e1, e2, e3, e4⟩
      obtain ⟨hm0, hfin⟩ := hg r hr e1 e2 e3
      have hc := hsafe r hr
      rw [Bool.eq_false_iff] at hc
      apply hc
      simp only [conflictoCon, Bool.and_eq_true, decide_eq_true_eq]
      refine ⟨⟨⟨⟨e1, e2⟩, e3⟩, ?_⟩, ?_⟩
      · rw [e4, hdef, hora_lt_iff]
        left
        exact Nat.lt_succ_self h
      · rw [hfin]
        show Hora.lt { hour := h, minute := 0 } (specComputeEnd r.hora_inicio) = true
        rw [e4]
        rw [hora_lt_iff]
        left
        show h < (h + 1) % 24
        omega

/-- Witness for C9 at a concrete input: for the store holding one
confirmed whole-hour reservation at 10:00, slot membership and the
availability check agree at the slot 10:00. -/
theorem c9_witness :
    ({ hour := 10, minute := 0 } : Hora) ∈
      canchaCentral.get_horarios_disponibles [rConfirmada] 5 ↔
    canchaCentral.esta_disponible [rConfirmada] 5 { hour := 10, minute := 0 } none = true :=
  c9_slots_iff_disponible canchaCentral [rConfirmada] 5 { hour := 10, minute := 0 }
    (by decide) (by decide)

/-! C2: concurrent quick-book requests for one identical slot.  Each
request is the reserva_rapida check-then-create sequence split at its two
store accesses: the availability read and the constraint-checked insert.
A scheduler interleaves the phases of the requests arbitrarily. -/

/-- Outcome observed by one concurrent caller: the success response, the
slot-taken message from a failed availability check, or the generic
exception-handler message from a commit rejected by the database. -/
inductive QOutcome where
  | success
  | slotNoDisponible
  | errorAlCrear
  deriving DecidableEq, Repr

/-- Phase of one in-flight reserva_rapida request. -/
inductive ProcState where
  | ready
  | checked
  | done (o : QOutcome)
  deriving DecidableEq, Repr

/-- Global state of a concurrent execution: the shared store and each
request's (fresh primary key, phase). -/
structure Config where
  db : List Reserva
  procs : List (Nat × ProcState)
  deriving DecidableEq, Repr

/-- One scheduler step: an interleaved phase of one request.  A ready
request runs the availability check against the current store; a checked
request attempts the insert, succeeding or receiving the generic error
according to the database constraint. -/
inductive CStep (c : Cancha) (jugador fecha : Nat) (hora : Hora) : Config → Config → Prop
  | check (db : List Reserva) (procs : List (Nat × ProcState)) (i nid : Nat)
      (st : ProcState)
      (hget : procs.get? i = some (nid, ProcState.ready))
      (hst : st = (if c.esta_disponible db fecha hora none then ProcState.checked
        else ProcState.done QOutcome.slotNoDisponible)) :
      CStep c jugador fecha hora ⟨db, procs⟩ ⟨db, procs.set i (nid, st)⟩
  | commitOk (db db2 : List Reserva) (procs : List (Nat × ProcState)) (i nid : Nat)
      (hget : procs.get? i = some (nid, ProcState.checked))
      (hins : dbInsert db (rapidaRecord c jugador fecha hora nid) = some db2) :
      CStep c jugador fecha hora ⟨db, procs⟩
        ⟨db2, procs.set i (nid, ProcState.done QOutcome.success)⟩
  | commitFail (db : List Reserva) (procs : List (Nat × ProcState)) (i nid : Nat)
      (hget : procs.get? i = some (nid, ProcState.checked))
      (hins : dbInsert db (rapidaRecord c jugador fecha hora nid) = none) :
      CStep c jugador fecha hora ⟨db, procs⟩
        ⟨db, procs.set i (nid, ProcState.done QOutcome.errorAlCrear)⟩

/-- Executions: reflexive-transitive closure of scheduler steps. -/
inductive CReach (c : Cancha) (jugador fecha : Nat) (hora : Hora) : Config → Config → Prop
  | refl (cfg : Config) : CReach c jugador fecha hora cfg cfg
  | tail {cfg1 cfg2 cfg3 : Config} (h1 : CReach c jugador fecha hora cfg1 cfg2)
      (h2 : CStep c jugador fecha hora cfg2 cfg3) : CReach c jugador fecha hora cfg1 cfg3

/-- Number of requests that have received the success response. -/
def successCount (procs : List (Nat × ProcState)) : Nat :=
  procs.countP (fun p => decide (p.2 = ProcState.done QOutcome.success))

/-- Number of confirmed rows in the store for one exact
(court, date, start time) triple. -/
def countTriple (cid fecha : Nat) (hora : Hora) (db : List Reserva) : Nat :=
  db.countP (fun q => decide (q.estado = Estado.confirmada) && decide (q.cancha = cid) &&
    decide (q.fecha_reserva = fecha) && decide (q.hora_inicio = hora))

theorem countP_set_of_get {α : Type} (p : α → Bool) :
    ∀ (l : List α) (i : Nat) (a b : α), l.get? i = some a →
      (l.set i b).countP p + (if p a then 1 else 0) =
        l.countP p + (if p b then 1 else 0) := by
  intro l
  induction l with
  | nil =>
    intro i a b h
    cases h
  | cons x xs ih =>
    intro i a b h
    cases i with
    | zero =>
      injection h with h2
      subst h2
      simp only [List.set, List.countP_cons]
      omega
    | succ j =>
      simp only [List.get?] at h
      simp only [List.set, List.countP_cons]
      have := ih j a b h
      omega

theorem successCount_set (procs : List (Nat × ProcState)) (i nid : Nat)
    (old new : ProcState) (hget : procs.get? i = some (nid, old)) :
    successCount (procs.set i (nid, new)) +
      (if old = ProcState.done QOutcome.success then 1 else 0) =
    successCount procs + (if new = ProcState.done QOutcome.success then 1 else 0) := by
  have h := countP_set_of_get
    (fun p : Nat × ProcState => decide (p.2 = ProcState.done QOutcome.success))
    procs i (nid, old) (nid, new) hget
  simpa [successCount] using h

theorem rapidaRecord_estado (c : Cancha) (jugador fecha : Nat) (hora : Hora) (nid : Nat) :
    (rapidaRecord c jugador fecha hora nid).estado = Estado.confirmada :=
  (save_defaults_estado c _).trans rfl

theorem rapidaRecord_cancha (c : Cancha) (jugador fecha : Nat) (hora : Hora) (nid : Nat) :
    (rapidaRecord c jugador fecha hora nid).cancha = c.id :=
  (save_defaults_cancha c _).trans rfl

theorem rapidaRecord_fecha (c : Cancha) (jugador fecha : Nat) (hora : Hora) (nid : Nat) :
    (rapidaRecord c jugador fecha hora nid).fecha_reserva = fecha :=
  (save_defaults_fecha c _).trans rfl

theorem rapidaRecord_hora (c : Cancha) (jugador fecha : Nat) (hora : Hora) (nid : Nat) :
    (rapidaRecord c jugador fecha hora nid).hora_inicio = hora :=
  (save_defaults_hora_inicio c _).trans rfl

theorem rapidaRecord_id (c : Cancha) (jugador fecha : Nat) (hora : Hora) (nid : Nat) :
    (rapidaRecord c jugador fecha hora nid).id = nid :=
  (save_defaults_id c _).trans rfl

theorem dbInsert_none {db : List Reserva} {r : Reserva} (h : dbInsert db r = none) :
    violatesUniqueConfirmed db r = true ∨ ∃ q ∈ db, q.id = r.id := by
  unfold dbInsert at h
  split at h
  · next hcond =>
    rcases (Bool.or_eq_true _ _).mp hcond with hv | ha
    · exact Or.inl hv
    · right
      simpa [List.any_eq_true] using ha
  · cases h

theorem violates_record_of_countTriple_pos {db : List Reserva} {c : Cancha}
    {jugador fecha : Nat} {hora : Hora} {nid : Nat}
    (h : violatesUniqueConfirmed db (rapidaRecord c jugador fecha hora nid) = false) :
    countTriple c.id fecha hora db = 0 := by
  rw [countTriple, List.countP_eq_zero]
  intro q hq hval
  simp only [Bool.and_eq_true, decide_eq_true_eq] at hval
  obtain ⟨⟨⟨v1, v2⟩, v3⟩, v4⟩ := hval
  have ht : violatesUniqueConfirmed db (rapidaRecord c jugador fecha hora nid) = true := by
    simp only [violatesUniqueConfirmed, Bool.and_eq_true, decide_eq_true_eq,
      List.any_eq_true, and_assoc]
    refine ⟨rapidaRecord_estado c jugador fecha hora nid, q, hq, v1, ?_, ?_, ?_⟩
    · rw [rapidaRecord_cancha]
      exact v2
    · rw [rapidaRecord_fecha]
      exact v3
    · rw [rapidaRecord_hora]
      exact v4
  rw [h] at ht
  cases ht

theorem countTriple_pos_of_violates_record {db : List Reserva} {c : Cancha}
    {jugador fecha : Nat} {hora : Hora} {nid : Nat}
    (h : violatesUniqueConfirmed db (rapidaRecord c jugador fecha hora nid) = true) :
    0 < countTriple c.id fecha hora db := by
  simp only [violatesUniqueConfirmed, Bool.and_eq_true, decide_eq_true_eq,
    List.any_eq_true, and_assoc] at h
  obtain ⟨-, q, hq, v1, v2, v3, v4⟩ := h
  rw [rapidaRecord_cancha] at v2
  rw [rapidaRecord_fecha] at v3
  rw [rapidaRecord_hora] at v4
  have hcz : countTriple c.id fecha hora db ≠ 0 := by
    rw [countTriple, Ne, List.countP_eq_zero]
    intro hall
    have := hall q hq
    simp only [Bool.and_eq_true, decide_eq_true_eq] at this
    exact this ⟨⟨⟨v1, v2⟩, v3⟩, v4⟩
  omega

theorem countTriple_insert_record (db : List Reserva) (c : Cancha)
    (jugador fecha : Nat) (hora : Hora) (nid : Nat) :
    countTriple c.id fecha hora (rapidaRecord c jugador fecha hora nid :: db) =
      countTriple c.id fecha hora db + 1 := by
  rw [countTriple, countTriple, List.countP_cons]
  congr 1
  simp only [Bool.and_eq_true, decide_eq_true_eq, rapidaRecord_estado, rapidaRecord_cancha,
    rapidaRecord_fecha, rapidaRecord_hora, if_pos]
  simp [rapidaRecord_estado, rapidaRecord_cancha, rapidaRecord_fecha, rapidaRecord_hora]

/-- Execution invariant for N identical concurrent quick-book requests
starting from store db0: at most one success so far; the number of
confirmed rows for the contested triple equals the number of successes;
before the first success the store is untouched and no request has
finished; every request's fresh key avoids the initial store; the number
of requests is constant. -/
structure CInv (c : Cancha) (fecha : Nat) (hora : Hora) (db0 : List Reserva)
    (n : Nat) (cfg : Config) : Prop where
  sLe : successCount cfg.procs ≤ 1
  count : countTriple c.id fecha hora cfg.db = successCount cfg.procs
  dbEq : successCount cfg.procs = 0 → cfg.db = db0
  states : successCount cfg.procs = 0 →
    ∀ p ∈ cfg.procs, p.2 = ProcState.ready ∨ p.2 = ProcState.checked
  fresh : ∀ p ∈ cfg.procs, ∀ r ∈ db0, r.id ≠ p.1
  len : cfg.procs.length = n

theorem cinv_init (c : Cancha) (fecha : Nat) (hora : Hora) (db0 : List Reserva)
    (procs0 : List (Nat × ProcState))
    (hready : ∀ p ∈ procs0, p.2 = ProcState.ready)
    (hfresh : ∀ p ∈ procs0, ∀ r ∈ db0, r.id ≠ p.1)
    (hcnt0 : countTriple c.id fecha hora db0 = 0) :
    CInv c fecha hora db0 procs0.length ⟨db0, procs0⟩ := by
  have hS : successCount procs0 = 0 := by
    rw [successCount, List.countP_eq_zero]
    intro p hp
    rw [hready p hp]
    decide
  refine ⟨?_, ?_, ?_, ?_, ?_, ?_⟩
  · show successCount procs0 ≤ 1
    omega
  · show countTriple c.id fecha hora db0 = successCount procs0
    rw [hcnt0, hS]
  · intro _
    rfl
  · intro _ p hp
    exact Or.inl (hready p hp)
  · exact hfresh
  · rfl

theorem cinv_step {c : Cancha} {jugador fecha : Nat} {hora : Hora} {db0 : List Reserva}
    {n : Nat} {cfg cfg2 : Config}
    (hav : c.esta_disponible db0 fecha hora none = true)
    (h : CStep c jugador fecha hora cfg cfg2)
    (hi : CInv c fecha hora db0 n cfg) :
    CInv c fecha hora db0 n cfg2 := by
  cases h with
  | check db procs i nid st hget hst =>
    have hisLe : successCount procs ≤ 1 := hi.sLe
    have hicount : countTriple c.id fecha hora db = successCount procs := hi.count
    have hidb : successCount procs = 0 → db = db0 := hi.dbEq
    have histates : successCount procs = 0 →
        ∀ p ∈ procs, p.2 = ProcState.ready ∨ p.2 = ProcState.checked := hi.states
    have hifresh : ∀ p ∈ procs, ∀ r ∈ db0, r.id ≠ p.1 := hi.fresh
    have hilen : procs.length = n := hi.len
    have hmemget : (nid, ProcState.ready) ∈ procs := List.get?_mem hget
    have hcnt := successCount_set procs i nid ProcState.ready st hget
    have hstne : ¬ st = ProcState.done QOutcome.success := by
      split at hst <;> simp [hst]
    rw [if_neg (by decide), if_neg hstne] at hcnt
    have hS : successCount (procs.set i (nid, st)) = successCount procs := by omega
    refine ⟨?_, ?_, ?_, ?_, ?_, ?_⟩
    · show successCount (procs.set i (nid, st)) ≤ 1
      omega
    · show countTriple c.id fecha hora db = successCount (procs.set i (nid, st))
      rw [hS, hicount]
    · intro h0
      show db = db0
      rw [hS] at h0
      exact hidb h0
    · intro h0 p hp
      replace h0 : successCount (procs.set i (nid, st)) = 0 := h0
      replace hp : p ∈ procs.set i (nid, st) := hp
      rw [hS] at h0
      rcases List.mem_or_eq_of_mem_set hp with hp2 | hp2
      · exact histates h0 p hp2
      · subst hp2
        split at hst
        · exact Or.inr (by rw [hst])
        · next hcond =>
          have hdb : db = db0 := hidb h0
          rw [hdb] at hcond
          exact absurd hav hcond
    · intro p hp r hr
      replace hp : p ∈ procs.set i (nid, st) := hp
      rcases List.mem_or_eq_of_mem_set hp with hp2 | hp2
      · exact hifresh p hp2 r hr
      · subst hp2
        exact hifresh (nid, ProcState.ready) hmemget r hr
    · show (procs.set i (nid, st)).length = n
      rw [List.length_set]
      exact hilen
  | commitOk db db2 procs i nid hget hins =>
    have hisLe : successCount procs ≤ 1 := hi.sLe
    have hicount : countTriple c.id fecha hora db = successCount procs := hi.count
    have hifresh : ∀ p ∈ procs, ∀ r ∈ db0, r.id ≠ p.1 := hi.fresh
    have hilen : procs.length = n := hi.len
    have hmemget : (nid, ProcState.checked) ∈ procs := List.get?_mem hget
    obtain ⟨hv, hid, rfl⟩ := dbInsert_some hins
    have hc0 : countTriple c.id fecha hora db = 0 :=
      violates_record_of_countTriple_pos hv
    have hS0 : successCount procs = 0 := by omega
    have hcnt := successCount_set procs i nid ProcState.checked
      (ProcState.done QOutcome.success) hget
    rw [if_neg (by decide), if_pos rfl] at hcnt
    have hS : successCount (procs.set i (nid, ProcState.done QOutcome.success)) = 1 := by
      omega
    refine ⟨?_, ?_, ?_, ?_, ?_, ?_⟩
    · show successCount (procs.set i (nid, ProcState.done QOutcome.success)) ≤ 1
      omega
    · show countTriple c.id fecha hora (rapidaRecord c jugador fecha hora nid :: db) =
        successCount (procs.set i (nid, ProcState.done QOutcome.success))
      rw [countTriple_insert_record, hc0, hS]
    · intro h0
      replace h0 : successCount (procs.set i (nid, ProcState.done QOutcome.success)) = 0 := h0
      rw [hS] at h0
      cases h0
    · intro h0
      replace h0 : successCount (procs.set i (nid, ProcState.done QOutcome.success)) = 0 := h0
      rw [hS] at h0
      cases h0
    · intro p hp r hr
      replace hp : p ∈ procs.set i (nid, ProcState.done QOutcome.success) := hp
      rcases List.mem_or_eq_of_mem_set hp with hp2 | hp2
      · exact hifresh p hp2 r hr
      · subst hp2
        exact hifresh (nid, ProcState.checked) hmemget r hr
    · show (procs.set i (nid, ProcState.done QOutcome.success)).length = n
      rw [List.length_set]
      exact hilen
  | commitFail db procs i nid hget hins =>
    have hisLe : successCount procs ≤ 1 := hi.sLe
    have hicount : countTriple c.id fecha hora db = successCount procs := hi.count
    have hidb : successCount procs = 0 → db = db0 := hi.dbEq
    have hifresh : ∀ p ∈ procs, ∀ r ∈ db0, r.id ≠ p.1 := hi.fresh
    have hilen : procs.length = n := hi.len
    have hmemget : (nid, ProcState.checked) ∈ procs := List.get?_mem hget
    have hcnt := successCount_set procs i nid ProcState.checked
      (ProcState.done QOutcome.errorAlCrear) hget
    rw [if_neg (by decide), if_neg (by decide)] at hcnt
    have hS : successCount (procs.set i (nid, ProcState.done QOutcome.errorAlCrear)) =
        successCount procs := by omega
    refine ⟨?_, ?_, ?_, ?_, ?_, ?_⟩
    · show successCount (procs.set i (nid, ProcState.done QOutcome.errorAlCrear)) ≤ 1
      omega
    · show countTriple c.id fecha hora db =
        successCount (procs.set i (nid, ProcState.done QOutcome.errorAlCrear))
      rw [hS, hicount]
    · intro h0
      show db = db0
      rw [hS] at h0
      exact hidb h0
    · intro h0 p hp
      replace h0 : successCount (procs.set i (nid, ProcState.done QOutcome.errorAlCrear)) = 0 := h0
      rw [hS] at h0
      exfalso
      have hdb : db = db0 := hidb h0
      subst hdb
      rcases dbInsert_none hins with hv | ⟨q, hq, hqid⟩
      · have hc0 : countTriple c.id fecha hora db = 0 := by omega
        have hpos := countTriple_pos_of_violates_record hv
        omega
      · rw [rapidaRecord_id] at hqid
        exact hifresh (nid, ProcState.checked) hmemget q hq hqid
    · intro p hp r hr
      replace hp : p ∈ procs.set i (nid, ProcState.done QOutcome.errorAlCrear) := hp
      rcases List.mem_or_eq_of_mem_set hp with hp2 | hp2
      · exact hifresh p hp2 r hr
      · subst hp2
        exact hifresh (nid, ProcState.checked) hmemget r hr
    · show (procs.set i (nid, ProcState.done QOutcome.errorAlCrear)).length = n
      rw [List.length_set]
      exact hilen

theorem creach_cinv {c : Cancha} {jugador fecha : Nat} {hora : Hora} {db0 : List Reserva}
    {n : Nat} {cfg0 cfg : Config}
    (hav : c.esta_disponible db0 fecha hora none = true)
    (hinit : CInv c fecha hora db0 n cfg0)
    (h : CReach c jugador fecha hora cfg0 cfg) :
    CInv c fecha hora db0 n cfg := by
  induction h with
  | refl => exact hinit
  | tail h1 h2 ih => exact cinv_step hav h2 ih

/-- C2 counterexample: with two concurrent quick-book requests for the
same free slot, the interleaving check, check, commit, commit ends with
request 1 succeeding and request 2 receiving the generic creation-error
response of the exception handler, not the slot-taken message: the claim
that all losers receive ConflictError(SlotTaken) fails. -/
theorem c2_counterexample :
    CReach canchaCentral 1 5 { hour := 10, minute := 0 }
      ⟨[], [(1, ProcState.ready), (2, ProcState.ready)]⟩
      ⟨[rConfirmada], [(1, ProcState.done QOutcome.success),
        (2, ProcState.done QOutcome.errorAlCrear)]⟩ ∧
    ProcState.done QOutcome.errorAlCrear ≠ ProcState.done QOutcome.slotNoDisponible := by
  refine ⟨?_, by decide⟩
  exact CReach.tail (CReach.tail (CReach.tail (CReach.tail
    (CReach.refl _)
    (CStep.check [] [(1, ProcState.ready), (2, ProcState.ready)] 0 1
      ProcState.checked rfl (by decide)))
    (CStep.check [] [(1, ProcState.checked), (2, ProcState.ready)] 1 2
      ProcState.checked rfl (by decide)))
    (CStep.commitOk [] [rConfirmada] [(1, ProcState.checked), (2, ProcState.checked)]
      0 1 rfl (by decide)))
    (CStep.commitFail [rConfirmada]
      [(1, ProcState.done QOutcome.success), (2, ProcState.checked)] 1 2 rfl (by decide))

/-- C2 amended: for any number N of at least one concurrent quick-book
requests for one identical free (court, date, start time) slot, started
with fresh distinct primary keys against a store with no confirmed row
for that triple, every completed interleaving ends with exactly one
request succeeding; each of the other N minus one requests receives a
typed failure response, either the slot-taken message (when its
availability check ran after the winner committed) or the generic
creation-error message (when its commit was rejected by the partial
unique constraint), never an unhandled fault. -/
theorem c2_exactly_one_success (c : Cancha) (jugador fecha : Nat) (hora : Hora)
    (db0 : List Reserva) (procs0 : List (Nat × ProcState)) (cfg : Config)
    (hne : procs0 ≠ [])
    (hready : ∀ p ∈ procs0, p.2 = ProcState.ready)
    (hfresh : ∀ p ∈ procs0, ∀ r ∈ db0, r.id ≠ p.1)
    (hcnt0 : countTriple c.id fecha hora db0 = 0)
    (hav : c.esta_disponible db0 fecha hora none = true)
    (hreach : CReach c jugador fecha hora ⟨db0, procs0⟩ cfg)
    (hdone : ∀ p ∈ cfg.procs, ∃ o, p.2 = ProcState.done o) :
    successCount cfg.procs = 1 ∧
    ∀ p ∈ cfg.procs, p.2 = ProcState.done QOutcome.success ∨
      p.2 = ProcState.done QOutcome.slotNoDisponible ∨
      p.2 = ProcState.done QOutcome.errorAlCrear := by
  have hinv := creach_cinv hav
    (cinv_init c fecha hora db0 procs0 hready hfresh hcnt0) hreach
  constructor
  · by_cases hS : successCount cfg.procs = 0
    · exfalso
      have hlen : cfg.procs.length = procs0.length := hinv.len
      have hnil : cfg.procs ≠ [] := by
        intro he
        rw [he] at hlen
        exact hne (List.eq_nil_of_length_eq_zero hlen.symm)
      obtain ⟨p, hp⟩ := List.exists_mem_of_ne_nil _ hnil
      obtain ⟨o, ho⟩ := hdone p hp
      rcases hinv.states hS p hp with h2 | h2 <;> rw [ho] at h2 <;> cases h2
    · have := hinv.sLe
      omega
  · intro p hp
    obtain ⟨o, ho⟩ := hdone p hp
    cases o with
    | success => exact Or.inl ho
    | slotNoDisponible => exact Or.inr (Or.inl ho)
    | errorAlCrear => exact Or.inr (Or.inr ho)

/-- Witness for C2 at a concrete input: a single request for a free slot,
run to completion, ends with exactly one success. -/
theorem c2_witness :
    successCount [(1, ProcState.done QOutcome.success)] = 1 ∧
    ∀ p ∈ ([(1, ProcState.done QOutcome.success)] : List (Nat × ProcState)),
      p.2 = ProcState.done QOutcome.success ∨
      p.2 = ProcState.done QOutcome.slotNoDisponible ∨
      p.2 = ProcState.done QOutcome.errorAlCrear := by
  have h := c2_exactly_one_success canchaCentral 1 5 { hour := 10, minute := 0 }
    [] [(1, ProcState.ready)] ⟨[rConfirmada], [(1, ProcState.done QOutcome.success)]⟩
    (by decide) (by decide) (by decide) (by decide) (by decide)
    (CReach.tail (CReach.tail (CReach.refl _)
      (CStep.check [] [(1, ProcState.ready)] 0 1 ProcState.checked rfl (by decide)))
      (CStep.commitOk [] [rConfirmada] [(1, ProcState.checked)] 0 1 rfl (by decide)))
    (by intro p hp; simp only [List.mem_singleton] at hp; subst hp
        exact ⟨QOutcome.success, rfl⟩)
  exact h

end PadelClub
